import Mathlib

/-
Shallow embedding of the scheduled email dispatch subsystem of the Webinar
repository (src/utils/scheduler.js, src/utils/email.js, src/utils/brevoEmail.js,
src/routes/admin.js), together with proofs settling the claims about it.

Modelling conventions:
* The Prisma-backed stores are a pure state record `Db` threaded explicitly.
* The external email transport (brevoEmail.js `sendEmail`) is an oracle in
  `Env`: the outcome of a transport attempt is `env.sendSuccess to`, keyed by
  the recipient address; both a provider failure and the not-configured
  "skipped" result are success = false.  Every attempt is appended to
  `Db.sent`.
* `crypto.randomBytes(32)` is an entropy oracle `env.randomBytes k` (the k-th
  call of the process); `Db.entropyUsed` counts the calls made so far.
* All occurrences of `new Date()` during one tick are modelled as the single
  instant `env.now` (epoch milliseconds); coarse minute-level polling makes
  the sub-tick drift irrelevant to every claim.
* A Prisma query can fail at runtime; the injected failure point needed by the
  crash-safety claim is `env.attendeeQueryFails`, which makes the
  pending-recipient query of `processScheduledEmail` throw (control then
  reaches the catch block, as in the source).
* JS functions that end without a `return` statement resolve with `undefined`;
  such a return value is modelled as `none`.
-/

namespace Webinar

/-- Schedule status enum: the strings `pending`, `running`, `completed`
written by scheduler.js. -/
inductive Status where
  | pending
  | running
  | completed
deriving DecidableEq, Repr

/-- Attendee record (the core-relevant columns of the Prisma `attendee`
table): per-slot sent flags, the general `emailSent` flag and the lazily
minted survey token. -/
structure Attendee where
  id : String
  name : String
  email : String
  surveyToken : Option String
  emailSent : Bool
  reminder1Sent : Bool
  reminder2Sent : Bool
  reminder3Sent : Bool
  postWebinarSent : Bool
deriving DecidableEq, Repr

/-- A `scheduledEmail` row: slot identity, due time (nullable, UTC epoch ms),
enabled flag, status, subject override (nullable) and last-run timestamp. -/
structure ScheduledEmail where
  id : Nat
  slot : Nat
  scheduledTime : Option Int
  subject : Option String
  enabled : Bool
  status : Status
  lastRun : Option Int
deriving DecidableEq, Repr

/-- The data handed to the external transport for one attempt
(brevoEmail.js `sendEmail` options): recipient, subject, which template
variant, and the survey token embedded in the composed links. -/
structure EmailMsg where
  toAddr : String
  toName : String
  subject : String
  emailType : String
  token : Option String
deriving DecidableEq, Repr

/-- Transport outcome as the callers consume it (`result.success`). -/
structure SendResult where
  success : Bool
deriving DecidableEq, Repr

/-- The per-run tally `{successCount, failureCount}`. -/
structure Summary where
  successCount : Nat
  failureCount : Nat
deriving DecidableEq, Repr

/-- Persistent state: attendee store, schedule store, the append-only record
of transport attempts, and the number of `crypto.randomBytes` calls made. -/
structure Db where
  attendees : List Attendee
  schedules : List ScheduledEmail
  sent : List EmailMsg
  entropyUsed : Nat

/-- External world: transport outcomes, entropy source, the clock, and the
injected failure of the pending-recipient query. -/
structure Env where
  sendSuccess : String → Bool
  randomBytes : Nat → List (Fin 256)
  now : Int
  attendeeQueryFails : Bool

/-! ### crypto.randomBytes(32).toString(\x27hex\x27) -/

/-- One lowercase hex digit, as produced by Node Buffer hex encoding. -/
def hexDigit (n : Nat) : Char :=
  if n < 10 then Char.ofNat (48 + n) else Char.ofNat (87 + n)

/-- Two hex digits of one byte. -/
def byteToHex (b : Fin 256) : List Char :=
  [hexDigit (b.val / 16), hexDigit (b.val % 16)]

/-- `Buffer.toString` with hex encoding. -/
def bytesToHex (bs : List (Fin 256)) : String :=
  ⟨(bs.map byteToHex).flatten⟩

/-! ### email.js -/

/-- `EMAIL_TYPES[t].defaultSubject`, with the source fallback
`EMAIL_TYPES[emailType] || EMAIL_TYPES.confirmation`. -/
def defaultSubject (emailType : String) : String :=
  if emailType == "reminder1" then "📅 Reminder: Student Mental Health Webinar Tomorrow!"
  else if emailType == "reminder2" then "⏰ Starting in a Few Hours: Student Mental Health Webinar"
  else if emailType == "reminder3" then "🚀 Starting NOW: Join the Student Mental Health Webinar!"
  else if emailType == "postWebinar" then "Thank You - Student Mental Health Webinar Resources"
  else if emailType == "subscription" then "Welcome to Mental Health Awareness Initiative!"
  else "⏰ Student Mental Health Webinar is TOMORROW - You\x27re In!"

/-- JS `a || b` on an optional string (empty string is falsy). -/
def jsOrStr : Option String → String → String
  | some s, d => if s == "" then d else s
  | none, d => d

/-- Transport attempt: append to the attempt record and report the oracle
outcome (brevoEmail.js `sendEmail`; it catches its own errors and always
returns a result object). -/
def sendEmail (env : Env) (msg : EmailMsg) (db : Db) : Db × SendResult :=
  ({ db with sent := db.sent ++ [msg] }, { success := env.sendSuccess msg.toAddr })

/-- The attendee update data of email.js `sendWebinarEmail` on success:
`{ emailSent: true }` plus the reminder flag matching the email type. -/
def reminderPatch (emailType : String) (b : Attendee) : Attendee :=
  { b with
    emailSent := true
    reminder1Sent := if emailType == "reminder1" then true else b.reminder1Sent
    reminder2Sent := if emailType == "reminder2" then true else b.reminder2Sent
    reminder3Sent := if emailType == "reminder3" then true else b.reminder3Sent }

/-- email.js `sendWebinarEmail`: compose (subject = custom || default, survey
link embedding `attendee.surveyToken`), send, and on success update the
attendee row by id. -/
def sendWebinarEmail (env : Env) (a : Attendee) (emailType : String)
    (customSubject : Option String) (db : Db) : Db × SendResult :=
  let subject := jsOrStr customSubject (defaultSubject emailType)
  let msg : EmailMsg :=
    { toAddr := a.email, toName := a.name, subject := subject,
      emailType := emailType, token := a.surveyToken }
  let (db1, result) := sendEmail env msg db
  if result.success then
    ({ db1 with attendees := db1.attendees.map (fun b =>
        if b.id == a.id then reminderPatch emailType b else b) }, result)
  else (db1, result)

/-- email.js `sendReminderEmail`: `sendWebinarEmail` with type
`reminder${slot}` and no calendar links. -/
def sendReminderEmail (env : Env) (a : Attendee) (slot : Nat)
    (customSubject : Option String) (db : Db) : Db × SendResult :=
  sendWebinarEmail env a ("reminder" ++ toString slot) customSubject db

/-- The attendee update of `sendPostWebinarEmail` on success:
`{ postWebinarSent: true }` and nothing else. -/
def postPatch (b : Attendee) : Attendee :=
  { b with postWebinarSent := true }

/-- email.js `sendPostWebinarEmail`: compose the post-webinar message (links
embed `attendee.surveyToken`), send, and on success set only
`postWebinarSent` on the attendee row. -/
def sendPostWebinarEmail (env : Env) (a : Attendee)
    (customSubject : Option String) (db : Db) : Db × SendResult :=
  let subject := jsOrStr customSubject (defaultSubject ("postWebinar"))
  let msg : EmailMsg :=
    { toAddr := a.email, toName := a.name, subject := subject,
      emailType := "postWebinar", token := a.surveyToken }
  let (db1, result) := sendEmail env msg db
  if result.success then
    ({ db1 with attendees := db1.attendees.map (fun b =>
        if b.id == a.id then postPatch b else b) }, result)
  else (db1, result)

/-! ### scheduler.js -/

/-- The tracking field chosen by `processScheduledEmail`:
`postWebinarSent` for slot 4, `reminder${slot}Sent` for slots 1-3.
(Slots outside 1..4 never reach this code: the schedule store only ever
contains slots 1..4 and the admin boundary validates slot numbers.) -/
def trackingFlag (isPostWebinar : Bool) (slot : Nat) (a : Attendee) : Bool :=
  if isPostWebinar then a.postWebinarSent
  else if slot == 1 then a.reminder1Sent
  else if slot == 2 then a.reminder2Sent
  else if slot == 3 then a.reminder3Sent
  else false

/-- The pending-recipient query: all attendees whose tracking flag for the
slot is false. -/
def pendingForSlot (sch : ScheduledEmail) (db : Db) : List Attendee :=
  db.attendees.filter (fun a => trackingFlag (sch.slot == 4) sch.slot a == false)

/-- Status update of the schedule row with the given id. -/
def setStatus (sid : Nat) (st : Status) (schedules : List ScheduledEmail) :
    List ScheduledEmail :=
  schedules.map (fun r => if r.id == sid then { r with status := st } else r)

/-- The inline token minting of `processScheduledEmail`: if the attendee has
no survey token, mint `crypto.randomBytes(32).toString` hex, persist it to
the attendee row, and patch the in-memory attendee before composing. -/
def ensureSurveyToken (env : Env) (a : Attendee) (db : Db) : Db × Attendee :=
  match a.surveyToken with
  | some _ => (db, a)
  | none =>
    let tok := bytesToHex (env.randomBytes db.entropyUsed)
    ({ db with
        attendees := db.attendees.map (fun b =>
          if b.id == a.id then { b with surveyToken := some tok } else b),
        entropyUsed := db.entropyUsed + 1 },
     { a with surveyToken := some tok })

/-- One iteration of the recipient loop of `processScheduledEmail`: ensure
the survey token, then send via the slot-appropriate function; yields whether
`result.success` held.  (The 100ms inter-send delay is a pure wait with no
state effect and is not modelled.) -/
def processRecipient (env : Env) (sch : ScheduledEmail) (a : Attendee)
    (db : Db) : Db × Bool :=
  let (db1, a1) := ensureSurveyToken env a db
  let (db2, result) :=
    if sch.slot == 4 then sendPostWebinarEmail env a1 sch.subject db1
    else sendReminderEmail env a1 sch.slot sch.subject db1
  (db2, result.success)

/-- The sequential recipient loop, accumulating `successCount`/`failCount`. -/
def dispatchLoop (env : Env) (sch : ScheduledEmail) :
    List Attendee → Db → Nat → Nat → Db × Nat × Nat
  | [], db, successCount, failCount => (db, successCount, failCount)
  | a :: rest, db, successCount, failCount =>
    let (db1, ok) := processRecipient env sch a db
    if ok then dispatchLoop env sch rest db1 (successCount + 1) failCount
    else dispatchLoop env sch rest db1 successCount (failCount + 1)

/-- The try-block body of `processScheduledEmail` after the row was marked
running: query pending recipients, run the loop, then mark the row
`completed` with `lastRun = now`.  Returns the final state and the tally the
source logs on completion. -/
def processScheduledEmailRun (env : Env) (sch : ScheduledEmail) (db1 : Db) :
    Db × Nat × Nat :=
  let attendees := pendingForSlot sch db1
  let (db2, successCount, failCount) := dispatchLoop env sch attendees db1 0 0
  ({ db2 with schedules := db2.schedules.map (fun r =>
      if r.id == sch.id then
        { r with status := Status.completed, lastRun := some env.now }
      else r) },
   successCount, failCount)

/-- scheduler.js `processScheduledEmail`: mark running; on an unexpected
exception (here: the pending-recipient query throwing) the catch block marks
the row pending again; otherwise run the loop and finalize.  The source
function has no `return` statement, so it resolves with `undefined`: the
second component, the value its caller receives, is always `none`. -/
def processScheduledEmail (env : Env) (sch : ScheduledEmail) (db : Db) :
    Db × Option Summary :=
  let db1 := { db with schedules := setStatus sch.id Status.running db.schedules }
  if env.attendeeQueryFails then
    ({ db1 with schedules := setStatus sch.id Status.pending db1.schedules }, none)
  else
    ((processScheduledEmailRun env sch db1).1, none)

/-- The `successCount`/`failCount` pair a completed run logs
("N sent, M failed"). -/
def processTally (env : Env) (sch : ScheduledEmail) (db : Db) : Nat × Nat :=
  (processScheduledEmailRun env sch
    { db with schedules := setStatus sch.id Status.running db.schedules }).2

/-- The poller query of `checkAndSendScheduledEmails`:
`enabled=true AND status=pending AND scheduledTime <= now` (a null
`scheduledTime` matches no `lte` condition). -/
def dueSlots (env : Env) (db : Db) : List ScheduledEmail :=
  db.schedules.filter (fun s =>
    s.enabled && s.status == Status.pending &&
      (match s.scheduledTime with
       | some t => decide (t ≤ env.now)
       | none => false))

/-- One poller tick: query the due slots once, then process each
sequentially. -/
def checkAndSendScheduledEmails (env : Env) (db : Db) : Db :=
  (dueSlots env db).foldl (fun acc s => (processScheduledEmail env s acc).1) db

/-- scheduler.js `triggerScheduledEmail`: look the slot up (throwing
not-found before any mutation), force its status to pending, re-fetch the
row and process it immediately. -/
def triggerScheduledEmail (env : Env) (slot : Nat) (db : Db) :
    Db × Except String ScheduledEmail :=
  match db.schedules.find? (fun r => r.slot == slot) with
  | none => (db, Except.error ("Scheduled email slot " ++ toString slot ++ " not found"))
  | some sch =>
    let db1 := { db with schedules := setStatus sch.id Status.pending db.schedules }
    match db1.schedules.find? (fun r => r.slot == slot) with
    | none =>
      -- unreachable: the row just updated still has this slot number
      (db1, Except.error ("Scheduled email slot " ++ toString slot ++ " not found"))
    | some updated =>
      let (db2, _) := processScheduledEmail env updated db1
      (db2, Except.ok updated)

/-- scheduler.js `resetSchedule`: force the row with this slot back to
pending, dispatching nothing. -/
def resetSchedule (slot : Nat) (db : Db) : Db :=
  { db with schedules := db.schedules.map (fun r =>
      if r.slot == slot then { r with status := Status.pending } else r) }

/-! ### scheduler.js updateSchedule and its admin.js caller -/

/-- The partial-update argument of `updateSchedule` (presence of a field
means the caller supplied it). -/
structure ScheduleUpdate where
  scheduledTime : Option Int := none
  scheduledTimeNpt : Option String := none
  subject : Option (Option String) := none
  enabled : Option Bool := none
  status : Option Status := none
deriving Repr

/-- NPT offset used by `updateSchedule`: (5*60+45)*60*1000 ms. -/
def NPT_OFFSET_MS : Int := (5 * 60 + 45) * 60 * 1000

/-- JS truthiness of an optional string (absent and empty are falsy). -/
def jsTruthyStr : Option String → Bool
  | some s => s != ""
  | none => false

/-- Application of the assembled update data to the schedule row. -/
def applyUpdate (u : ScheduleUpdate) (r : ScheduledEmail) : ScheduledEmail :=
  { r with
    scheduledTime := match u.scheduledTime with
      | some t => some t
      | none => r.scheduledTime
    subject := u.subject.getD r.subject
    enabled := u.enabled.getD r.enabled
    status := u.status.getD r.status }

/-- scheduler.js `updateSchedule`: copy the data; if `scheduledTimeNpt` is
truthy, convert it to UTC into `updateData.scheduledTime` and drop the NPT
field; then — reading the ORIGINAL `data`, exactly as the source does —
`if (data.enabled && data.scheduledTime)` force `status = pending`; finally
apply to the row with this slot.  `parseDate` is the external
`new Date(string).getTime()` parser. -/
def updateSchedule (parseDate : String → Int) (slot : Nat)
    (data : ScheduleUpdate) (db : Db) : Db :=
  let upd :=
    if jsTruthyStr data.scheduledTimeNpt then
      { data with
        scheduledTime := some (parseDate (data.scheduledTimeNpt.getD ("")) - NPT_OFFSET_MS),
        scheduledTimeNpt := none }
    else data
  let upd :=
    if data.enabled == some true && data.scheduledTime.isSome then
      { upd with status := some Status.pending }
    else upd
  { db with schedules := db.schedules.map (fun r =>
      if r.slot == slot then applyUpdate upd r else r) }

/-- The update data built by the admin route POST /email-scheduler:
`{ subject: subject || null, enabled: boolean }` plus `scheduledTimeNpt`
when truthy; the route never supplies `scheduledTime` directly. -/
def adminUpdateData (subject : String) (enabled : Bool)
    (scheduledTimeNpt : Option String) : ScheduleUpdate :=
  { subject := some (if subject == "" then none else some subject),
    enabled := some enabled,
    scheduledTimeNpt := if jsTruthyStr scheduledTimeNpt then scheduledTimeNpt else none }

/-! ### admin.js test-send route POST /email-scheduler/test/:slot -/

/-- The test-send route: validate the slot (1..4, else flash an error and
mutate nothing), build a synthetic attendee with id `test` and a throwaway
token, read the slot subject, and send one email through
`sendPostWebinarEmail` / `sendReminderEmail`.  (On transport success those
functions attempt the flag update for id `test`; with no such stored row
Prisma throws, the route catch swallows it, and the store is unchanged —
observationally the same as the id-keyed map touching nothing.) -/
def testEmailRoute (env : Env) (slotNum : Nat)
    (testEmailBody testNameBody : Option String)
    (userEmail userName : String) (db : Db) : Db × Option SendResult :=
  if slotNum == 1 || slotNum == 2 || slotNum == 3 || slotNum == 4 then
    let testEmail := match testEmailBody with
      | some s => if s != "" && s.trim != "" then s.trim else userEmail
      | none => userEmail
    let testAttendee : Attendee :=
      { id := "test",
        name := jsOrStr testNameBody (jsOrStr (some userName) ("Test User")),
        email := testEmail,
        surveyToken := some ("test-token-" ++ toString env.now),
        emailSent := false, reminder1Sent := false, reminder2Sent := false,
        reminder3Sent := false, postWebinarSent := false }
    let schSubject := match db.schedules.find? (fun r => r.slot == slotNum) with
      | some s => s.subject
      | none => none
    let result :=
      if slotNum == 4 then sendPostWebinarEmail env testAttendee schSubject db
      else sendReminderEmail env testAttendee slotNum schSubject db
    (result.1, some result.2)
  else (db, none)

/-! ## Helper notions and lemmas -/

/-- A lowercase hex character (Node Buffer hex alphabet). -/
def isLowerHexChar (c : Char) : Bool :=
  (48 ≤ c.toNat && c.toNat ≤ 57) || (97 ≤ c.toNat && c.toNat ≤ 102)

theorem hexDigit_isHex {n : Nat} (h : n < 16) : isLowerHexChar (hexDigit n) = true := by
  interval_cases n <;> decide

theorem byteToHex_isHex (b : Fin 256) : ∀ c ∈ byteToHex b, isLowerHexChar c = true := by
  intro c hc
  have hdiv : b.val / 16 < 16 := by omega
  have hmod : b.val % 16 < 16 := by omega
  simp only [byteToHex, List.mem_cons, List.not_mem_nil, or_false] at hc
  rcases hc with h | h <;> subst h
  · exact hexDigit_isHex hdiv
  · exact hexDigit_isHex hmod

theorem bytesToHex_data (bs : List (Fin 256)) :
    (bytesToHex bs).data = (bs.map byteToHex).flatten := rfl

theorem bytesToHex_length (bs : List (Fin 256)) :
    (bytesToHex bs).length = 2 * bs.length := by
  show (bytesToHex bs).data.length = 2 * bs.length
  rw [bytesToHex_data]
  induction bs with
  | nil => simp
  | cons b rest ih =>
    simp only [List.map_cons, List.flatten_cons, List.length_append, ih,
      List.length_cons, byteToHex, List.length_nil]
    omega

theorem bytesToHex_isHex (bs : List (Fin 256)) :
    ∀ c ∈ (bytesToHex bs).data, isLowerHexChar c = true := by
  intro c hc
  rw [bytesToHex_data] at hc
  rcases List.mem_flatten.mp hc with ⟨chunk, hchunk, hcmem⟩
  rcases List.mem_map.mp hchunk with ⟨b, _, rfl⟩
  exact byteToHex_isHex b c hcmem

/-- Identity fields never touched by the dispatch subsystem. -/
def Core (b b1 : Attendee) : Prop :=
  b1.id = b.id ∧ b1.name = b.name ∧ b1.email = b.email

/-- Flag monotonicity: no sent flag moves from true back to false. -/
def FlagsLe (b b1 : Attendee) : Prop :=
  (b.emailSent = true → b1.emailSent = true) ∧
  (b.reminder1Sent = true → b1.reminder1Sent = true) ∧
  (b.reminder2Sent = true → b1.reminder2Sent = true) ∧
  (b.reminder3Sent = true → b1.reminder3Sent = true) ∧
  (b.postWebinarSent = true → b1.postWebinarSent = true)

theorem core_refl (b : Attendee) : Core b b := ⟨rfl, rfl, rfl⟩

theorem core_trans {a b c : Attendee} (h1 : Core a b) (h2 : Core b c) : Core a c := by
  obtain ⟨i1, n1, e1⟩ := h1; obtain ⟨i2, n2, e2⟩ := h2
  exact ⟨i2.trans i1, n2.trans n1, e2.trans e1⟩

theorem flagsLe_refl (b : Attendee) : FlagsLe b b :=
  ⟨fun h => h, fun h => h, fun h => h, fun h => h, fun h => h⟩

theorem flagsLe_trans {a b c : Attendee} (h1 : FlagsLe a b) (h2 : FlagsLe b c) :
    FlagsLe a c := by
  obtain ⟨x1, x2, x3, x4, x5⟩ := h1; obtain ⟨y1, y2, y3, y4, y5⟩ := h2
  exact ⟨fun h => y1 (x1 h), fun h => y2 (x2 h), fun h => y3 (x3 h),
    fun h => y4 (x4 h), fun h => y5 (x5 h)⟩

/-- The slot numbers occurring in this system. -/
def ValidSlot (slot : Nat) : Prop :=
  slot = 1 ∨ slot = 2 ∨ slot = 3 ∨ slot = 4

theorem trackingFlag_mono {slot : Nat} (hslot : ValidSlot slot) {b b1 : Attendee}
    (h : FlagsLe b b1) (ht : trackingFlag (slot == 4) slot b = true) :
    trackingFlag (slot == 4) slot b1 = true := by
  obtain ⟨-, h1, h2, h3, h4⟩ := h
  rcases hslot with rfl | rfl | rfl | rfl <;> simp [trackingFlag] at ht ⊢
  · exact h1 ht
  · exact h2 ht
  · exact h3 ht
  · exact h4 ht

/-! Forall₂ plumbing. -/

theorem forall2_of_map {α : Type} {R : α → α → Prop} (f : α → α) (l : List α)
    (h : ∀ x ∈ l, R x (f x)) : List.Forall₂ R l (l.map f) := by
  induction l with
  | nil => exact List.Forall₂.nil
  | cons a rest ih =>
    exact List.Forall₂.cons (h a (List.mem_cons_self a rest))
      (ih fun x hx => h x (List.mem_cons_of_mem a hx))

theorem forall2_refl_of {α : Type} {R : α → α → Prop} (l : List α)
    (h : ∀ x ∈ l, R x x) : List.Forall₂ R l l := by
  have := forall2_of_map id l (by simpa using h)
  simpa using this

theorem forall2_trans_comp {α β γ : Type} {R : α → β → Prop} {S : β → γ → Prop}
    {T : α → γ → Prop} (hcomp : ∀ a b c, R a b → S b c → T a c) :
    ∀ {l1 : List α} {l2 : List β} {l3 : List γ},
      List.Forall₂ R l1 l2 → List.Forall₂ S l2 l3 → List.Forall₂ T l1 l3 := by
  intro l1 l2 l3 h12 h23
  induction h12 generalizing l3 with
  | nil => cases h23; exact List.Forall₂.nil
  | cons hab _ ih =>
    cases h23 with
    | cons hbc hrest => exact List.Forall₂.cons (hcomp _ _ _ hab hbc) (ih hrest)

theorem countP_eq_of_forall2 {α β : Type} {R : α → β → Prop} {p : α → Bool}
    {q : β → Bool} : ∀ {l1 : List α} {l2 : List β}, List.Forall₂ R l1 l2 →
    (∀ a b, a ∈ l1 → R a b → q b = p a) → l2.countP q = l1.countP p := by
  intro l1 l2 h
  induction h with
  | nil => intro _; rfl
  | @cons a b l1t l2t hab _ ih =>
    intro hpt
    have hq : q b = p a := hpt a b (List.mem_cons_self a l1t) hab
    have := ih fun x y hx hr => hpt x y (List.mem_cons_of_mem a hx) hr
    simp [List.countP_cons, this, hq]

theorem countP_or_disjoint {α : Type} (p q : α → Bool) (l : List α)
    (h : ∀ x ∈ l, ¬(p x = true ∧ q x = true)) :
    l.countP (fun x => p x || q x) = l.countP p + l.countP q := by
  induction l with
  | nil => rfl
  | cons a rest ih =>
    have ha := h a (List.mem_cons_self a rest)
    have := ih fun x hx => h x (List.mem_cons_of_mem a hx)
    cases hp : p a <;> cases hq : q a
    · simp [List.countP_cons, hp, hq, this]
    · simp [List.countP_cons, hp, hq, this]; omega
    · simp [List.countP_cons, hp, hq, this]; omega
    · exact absurd ⟨hp, hq⟩ ha

theorem countP_add_countP_not {α : Type} (p : α → Bool) (l : List α) :
    l.countP p + l.countP (fun x => !(p x)) = l.length := by
  induction l with
  | nil => rfl
  | cons a rest ih =>
    cases hp : p a <;> simp [List.countP_cons, hp] <;> omega

theorem eq_of_nodup_idmap {l : List Attendee}
    (hn : (l.map (fun a => a.id)).Nodup) {a b : Attendee}
    (ha : a ∈ l) (hb : b ∈ l) (hid : a.id = b.id) : a = b :=
  List.inj_on_of_nodup_map hn ha hb hid

/-! Concrete email-type strings. -/

theorem emailTypeFor_one : ("reminder" ++ toString (1 : Nat)) = "reminder1" := by decide
theorem emailTypeFor_two : ("reminder" ++ toString (2 : Nat)) = "reminder2" := by decide
theorem emailTypeFor_three : ("reminder" ++ toString (3 : Nat)) = "reminder3" := by decide

theorem trackingFlag_eq_of_flags {x : Bool} {slot : Nat} {b b1 : Attendee}
    (h1 : b1.reminder1Sent = b.reminder1Sent) (h2 : b1.reminder2Sent = b.reminder2Sent)
    (h3 : b1.reminder3Sent = b.reminder3Sent) (h4 : b1.postWebinarSent = b.postWebinarSent) :
    trackingFlag x slot b1 = trackingFlag x slot b := by
  simp only [trackingFlag, h1, h2, h3, h4]

/-! The effect of one recipient iteration on the attendee store, as two
id-keyed maps: the token-minting update followed by the on-success flag
update. -/

/-- The store effect of `ensureSurveyToken` on one row (`k` = entropy index
at the time of the call). -/
def tokenUpd (env : Env) (a : Attendee) (k : Nat) (b : Attendee) : Attendee :=
  match a.surveyToken with
  | some _ => b
  | none =>
    if b.id == a.id then { b with surveyToken := some (bytesToHex (env.randomBytes k)) }
    else b

/-- The store effect of the send step on one row: on transport success the
slot-appropriate flag patch for rows with the recipient id. -/
def flagUpd (env : Env) (sch : ScheduledEmail) (a : Attendee) (b : Attendee) : Attendee :=
  if env.sendSuccess a.email then
    if b.id == a.id then
      (if sch.slot == 4 then postPatch b
       else reminderPatch ("reminder" ++ toString sch.slot) b)
    else b
  else b

theorem processRecipient_attendees (env : Env) (sch : ScheduledEmail)
    (a : Attendee) (db : Db) :
    (processRecipient env sch a db).1.attendees
      = (db.attendees.map (tokenUpd env a db.entropyUsed)).map (flagUpd env sch a) := by
  rcases htok : a.surveyToken with _ | t <;>
    cases hs4 : (sch.slot == 4) <;>
    cases hsucc : env.sendSuccess a.email <;>
    simp [processRecipient, ensureSurveyToken, sendReminderEmail, sendWebinarEmail,
      sendPostWebinarEmail, sendEmail, tokenUpd, flagUpd, htok, hs4, hsucc,
      Function.comp_def]

theorem processRecipient_ok (env : Env) (sch : ScheduledEmail) (a : Attendee) (db : Db) :
    (processRecipient env sch a db).2 = env.sendSuccess a.email := by
  rcases htok : a.surveyToken with _ | t <;>
    cases hs4 : (sch.slot == 4) <;>
    simp [processRecipient, ensureSurveyToken, sendReminderEmail, sendWebinarEmail,
      sendPostWebinarEmail, sendEmail, htok, hs4] <;>
    cases hsucc : env.sendSuccess a.email <;> simp [hsucc]

theorem processRecipient_schedules (env : Env) (sch : ScheduledEmail)
    (a : Attendee) (db : Db) :
    (processRecipient env sch a db).1.schedules = db.schedules := by
  rcases htok : a.surveyToken with _ | t <;>
    cases hs4 : (sch.slot == 4) <;>
    cases hsucc : env.sendSuccess a.email <;>
    simp [processRecipient, ensureSurveyToken, sendReminderEmail, sendWebinarEmail,
      sendPostWebinarEmail, sendEmail, htok, hs4, hsucc]

/-- The token the iteration works with: the existing one, or the one minted
from the entropy source at the current index. -/
def tokenAfter (env : Env) (a : Attendee) (k : Nat) : Option String :=
  match a.surveyToken with
  | some t => some t
  | none => some (bytesToHex (env.randomBytes k))

theorem processRecipient_sent (env : Env) (sch : ScheduledEmail) (a : Attendee) (db : Db) :
    ∃ msg : EmailMsg, (processRecipient env sch a db).1.sent = db.sent ++ [msg] ∧
      msg.toAddr = a.email ∧ msg.toName = a.name ∧
      msg.token = tokenAfter env a db.entropyUsed := by
  rcases htok : a.surveyToken with _ | t <;>
    cases hs4 : (sch.slot == 4) <;>
    cases hsucc : env.sendSuccess a.email <;>
    simp [processRecipient, ensureSurveyToken, sendReminderEmail, sendWebinarEmail,
      sendPostWebinarEmail, sendEmail, tokenAfter, htok, hs4, hsucc]

theorem tokenUpd_fields (env : Env) (a : Attendee) (k : Nat) (b : Attendee) :
    (tokenUpd env a k b).id = b.id ∧ (tokenUpd env a k b).name = b.name ∧
    (tokenUpd env a k b).email = b.email ∧ (tokenUpd env a k b).emailSent = b.emailSent ∧
    (tokenUpd env a k b).reminder1Sent = b.reminder1Sent ∧
    (tokenUpd env a k b).reminder2Sent = b.reminder2Sent ∧
    (tokenUpd env a k b).reminder3Sent = b.reminder3Sent ∧
    (tokenUpd env a k b).postWebinarSent = b.postWebinarSent := by
  unfold tokenUpd
  rcases a.surveyToken with _ | t
  · by_cases hid : b.id = a.id <;> simp [hid]
  · simp

theorem tokenUpd_of_ne (env : Env) (a : Attendee) (k : Nat) (b : Attendee)
    (h : ¬(a.id = b.id)) : tokenUpd env a k b = b := by
  unfold tokenUpd
  rcases a.surveyToken with _ | t
  · have : ¬(b.id = a.id) := fun hh => h hh.symm
    simp [this]
  · simp

/-- Relation between an attendee row before and after one recipient
iteration for recipient `a`. -/
def StepRel (env : Env) (sch : ScheduledEmail) (a : Attendee) (b b1 : Attendee) : Prop :=
  Core b b1 ∧ FlagsLe b b1 ∧
  (a.id ≠ b.id → b1 = b) ∧
  (ValidSlot sch.slot → a.id = b.id → env.sendSuccess a.email = true →
    trackingFlag (sch.slot == 4) sch.slot b1 = true) ∧
  (env.sendSuccess a.email = false →
    trackingFlag (sch.slot == 4) sch.slot b1 = trackingFlag (sch.slot == 4) sch.slot b)

theorem stepRel_pointwise (env : Env) (sch : ScheduledEmail) (a : Attendee)
    (k : Nat) (b : Attendee) :
    StepRel env sch a b (flagUpd env sch a (tokenUpd env a k b)) := by
  obtain ⟨f0, f1, f2, f3, f4, f5, f6, f7⟩ := tokenUpd_fields env a k b
  cases hsucc : env.sendSuccess a.email
  · -- transport failure: the flag update does nothing
    refine ⟨⟨?_, ?_, ?_⟩, ?_, ?_, ?_, ?_⟩ <;>
      simp [flagUpd, hsucc, f0, f1, f2, f3, f4, f5, f6, f7, FlagsLe]
    · intro hne; exact tokenUpd_of_ne env a k b hne
    · exact trackingFlag_eq_of_flags f4 f5 f6 f7
  · by_cases hid : a.id = b.id
    · -- matching row, success: the flag patch applies
      have hbeq : ((tokenUpd env a k b).id == a.id) = true := by
        simp [f0, hid.symm]
      refine ⟨?_, ?_, ?_, ?_, ?_⟩
      · cases hs4 : (sch.slot == 4) <;>
          simp [flagUpd, hsucc, hbeq, hid.symm, hs4, Core, postPatch, reminderPatch,
            f0, f1, f2]
      · cases hs4 : (sch.slot == 4) <;>
          simp [flagUpd, hsucc, hbeq, hid.symm, hs4, postPatch, reminderPatch, FlagsLe,
            f0, f3, f4, f5, f6, f7] <;>
          try tauto
      · intro hne; exact absurd hid hne
      · intro hvs _ _
        rcases hvs with h1 | h2 | h3 | h4
        · simp [flagUpd, hsucc, hbeq, hid.symm, f0, h1, trackingFlag, reminderPatch,
            emailTypeFor_one]
        · simp [flagUpd, hsucc, hbeq, hid.symm, f0, h2, trackingFlag, reminderPatch,
            emailTypeFor_two]
        · simp [flagUpd, hsucc, hbeq, hid.symm, f0, h3, trackingFlag, reminderPatch,
            emailTypeFor_three]
        · simp [flagUpd, hsucc, hbeq, hid.symm, f0, h4, trackingFlag, postPatch]
      · intro hcontra; exact absurd hsucc (by simp [hcontra])
    · -- non-matching row: untouched
      have hbeq : ((tokenUpd env a k b).id == a.id) = false := by
        simp [f0]
        exact fun hh => hid (hh.symm)
      have huntouched : flagUpd env sch a (tokenUpd env a k b) = b := by
        simp [flagUpd, hsucc, hbeq]
        exact tokenUpd_of_ne env a k b hid
      rw [huntouched]
      exact ⟨core_refl b, flagsLe_refl b, fun _ => rfl,
        fun _ hab _ => absurd hab hid, fun _ => rfl⟩

/-- Relation between an attendee row before and after the dispatch loop over
the recipient list `l`. -/
def StoreRel (env : Env) (sch : ScheduledEmail) (l : List Attendee)
    (b b1 : Attendee) : Prop :=
  Core b b1 ∧ FlagsLe b b1 ∧
  ((∀ a ∈ l, a.id ≠ b.id) → b1 = b) ∧
  (ValidSlot sch.slot → (∃ a ∈ l, a.id = b.id ∧ env.sendSuccess a.email = true) →
    trackingFlag (sch.slot == 4) sch.slot b1 = true) ∧
  ((∀ a ∈ l, a.id = b.id → env.sendSuccess a.email = false) →
    trackingFlag (sch.slot == 4) sch.slot b1 = trackingFlag (sch.slot == 4) sch.slot b)

theorem storeRel_nil_refl (env : Env) (sch : ScheduledEmail) (b : Attendee) :
    StoreRel env sch [] b b := by
  refine ⟨core_refl b, flagsLe_refl b, fun _ => rfl, ?_, fun _ => rfl⟩
  rintro _ ⟨a, ha, -⟩
  exact absurd ha (List.not_mem_nil a)

theorem stepRel_storeRel_comp {env : Env} {sch : ScheduledEmail} {a : Attendee}
    {rest : List Attendee} (b b1 b2 : Attendee)
    (hs : StepRel env sch a b b1) (hr : StoreRel env sch rest b1 b2) :
    StoreRel env sch (a :: rest) b b2 := by
  obtain ⟨hcore1, hle1, hframe1, hset1, hfail1⟩ := hs
  obtain ⟨hcore2, hle2, hframe2, hset2, hfail2⟩ := hr
  refine ⟨core_trans hcore1 hcore2, flagsLe_trans hle1 hle2, ?_, ?_, ?_⟩
  · intro hall
    have hb1 : b1 = b := hframe1 (hall a (List.mem_cons_self a rest))
    have : b2 = b1 := hframe2 fun x hx => by
      rw [hb1]; exact hall x (List.mem_cons_of_mem a hx)
    rw [this, hb1]
  · intro hvs hex
    rcases hex with ⟨x, hxmem, hxid, hxsucc⟩
    rcases List.mem_cons.mp hxmem with rfl | hxr
    · exact trackingFlag_mono hvs hle2 (hset1 hvs hxid hxsucc)
    · exact hset2 hvs ⟨x, hxr, by rw [hcore1.1]; exact hxid, hxsucc⟩
  · intro hall
    have hstep : trackingFlag (sch.slot == 4) sch.slot b1
        = trackingFlag (sch.slot == 4) sch.slot b := by
      cases hsucca : env.sendSuccess a.email
      · exact hfail1 hsucca
      · by_cases haid : a.id = b.id
        · have := hall a (List.mem_cons_self a rest) haid
          rw [this] at hsucca
          exact absurd hsucca (by simp)
        · rw [hframe1 haid]
    have hrest := hfail2 fun x hx hxid => by
      refine hall x (List.mem_cons_of_mem a hx) ?_
      rw [← hcore1.1]; exact hxid
    rw [hrest, hstep]

theorem dispatchLoop_storeRel (env : Env) (sch : ScheduledEmail) :
    ∀ (l : List Attendee) (db : Db) (s f : Nat),
      List.Forall₂ (StoreRel env sch l) db.attendees
        ((dispatchLoop env sch l db s f).1.attendees) := by
  intro l
  induction l with
  | nil =>
    intro db s f
    exact forall2_refl_of _ fun b _ => storeRel_nil_refl env sch b
  | cons a rest ih =>
    intro db s f
    rcases hpr : processRecipient env sch a db with ⟨db1, ok⟩
    have hstep : List.Forall₂ (StepRel env sch a) db.attendees db1.attendees := by
      have hatt := processRecipient_attendees env sch a db
      rw [hpr] at hatt
      rw [hatt, List.map_map]
      exact forall2_of_map _ _ fun b _ => stepRel_pointwise env sch a db.entropyUsed b
    have hunfold : dispatchLoop env sch (a :: rest) db s f
        = if ok then dispatchLoop env sch rest db1 (s + 1) f
          else dispatchLoop env sch rest db1 s (f + 1) := by
      simp [dispatchLoop, hpr]
    rw [hunfold]
    cases ok <;> simp only [if_true, if_false, Bool.false_eq_true, ite_false, ite_true] <;>
      exact forall2_trans_comp (fun b b1 b2 => stepRel_storeRel_comp b b1 b2) hstep
        (ih db1 _ _)

theorem dispatchLoop_tally (env : Env) (sch : ScheduledEmail) :
    ∀ (l : List Attendee) (db : Db) (s f : Nat),
      (dispatchLoop env sch l db s f).2
        = (s + l.countP (fun a => env.sendSuccess a.email),
           f + l.countP (fun a => !(env.sendSuccess a.email))) := by
  intro l
  induction l with
  | nil => intro db s f; simp [dispatchLoop]
  | cons a rest ih =>
    intro db s f
    rcases hpr : processRecipient env sch a db with ⟨db1, ok⟩
    have hok : ok = env.sendSuccess a.email := by
      have := processRecipient_ok env sch a db
      rw [hpr] at this
      exact this
    subst hok
    cases hsucc : env.sendSuccess a.email <;>
      rw [hsucc] at hpr <;>
      simp [dispatchLoop, hpr, hsucc, ih, List.countP_cons] <;> omega

theorem dispatchLoop_sent (env : Env) (sch : ScheduledEmail) :
    ∀ (l : List Attendee) (db : Db) (s f : Nat),
      ∃ msgs : List EmailMsg,
        (dispatchLoop env sch l db s f).1.sent = db.sent ++ msgs ∧
        msgs.length = l.length ∧
        ∀ m ∈ msgs, ∃ a ∈ l, m.toAddr = a.email := by
  intro l
  induction l with
  | nil =>
    intro db s f
    exact ⟨[], by simp [dispatchLoop], rfl, by simp⟩
  | cons a rest ih =>
    intro db s f
    rcases hpr : processRecipient env sch a db with ⟨db1, ok⟩
    obtain ⟨msg, hsent, hto, hname, htok⟩ := processRecipient_sent env sch a db
    rw [hpr] at hsent
    have hpush : ∀ s1 f1, ∃ msgs : List EmailMsg,
        (dispatchLoop env sch rest db1 s1 f1).1.sent = db.sent ++ msgs ∧
        msgs.length = rest.length + 1 ∧
        ∀ m ∈ msgs, ∃ x ∈ a :: rest, m.toAddr = x.email := by
      intro s1 f1
      obtain ⟨msgs, h1, h2, h3⟩ := ih db1 s1 f1
      refine ⟨msg :: msgs, ?_, by simp [h2], ?_⟩
      · rw [h1, hsent]; simp
      · intro m hm
        rcases List.mem_cons.mp hm with rfl | hm2
        · exact ⟨a, List.mem_cons_self a rest, hto⟩
        · obtain ⟨x, hx, hxe⟩ := h3 m hm2
          exact ⟨x, List.mem_cons_of_mem a hx, hxe⟩
    have hunfold : dispatchLoop env sch (a :: rest) db s f
        = if ok then dispatchLoop env sch rest db1 (s + 1) f
          else dispatchLoop env sch rest db1 s (f + 1) := by
      simp [dispatchLoop, hpr]
    rw [hunfold]
    cases ok <;> simp only [if_true, if_false, Bool.false_eq_true, ite_false, ite_true] <;>
      [exact (by simpa [List.length_cons] using hpush s (f + 1));
       exact (by simpa [List.length_cons] using hpush (s + 1) f)]

theorem dispatchLoop_schedules (env : Env) (sch : ScheduledEmail) :
    ∀ (l : List Attendee) (db : Db) (s f : Nat),
      (dispatchLoop env sch l db s f).1.schedules = db.schedules := by
  intro l
  induction l with
  | nil => intro db s f; simp [dispatchLoop]
  | cons a rest ih =>
    intro db s f
    rcases hpr : processRecipient env sch a db with ⟨db1, ok⟩
    have hsch : db1.schedules = db.schedules := by
      have := processRecipient_schedules env sch a db
      rw [hpr] at this
      exact this
    have hunfold : dispatchLoop env sch (a :: rest) db s f
        = if ok then dispatchLoop env sch rest db1 (s + 1) f
          else dispatchLoop env sch rest db1 s (f + 1) := by
      simp [dispatchLoop, hpr]
    rw [hunfold]
    cases ok <;> simp [ih, hsch]

/-! Assembly lemmas at the level of `processScheduledEmail`. -/

theorem processScheduledEmailRun_eq (env : Env) (sch : ScheduledEmail) (db1 : Db) :
    processScheduledEmailRun env sch db1 =
      ({ (dispatchLoop env sch (pendingForSlot sch db1) db1 0 0).1 with
          schedules := (dispatchLoop env sch (pendingForSlot sch db1) db1 0 0).1.schedules.map
            (fun r => if r.id == sch.id then
              { r with status := Status.completed, lastRun := some env.now } else r) },
       (dispatchLoop env sch (pendingForSlot sch db1) db1 0 0).2.1,
       (dispatchLoop env sch (pendingForSlot sch db1) db1 0 0).2.2) := by
  rcases h : dispatchLoop env sch (pendingForSlot sch db1) db1 0 0 with ⟨db2, s, f⟩
  simp [processScheduledEmailRun, h]

theorem processScheduledEmail_eq_run (env : Env) (sch : ScheduledEmail) (db : Db)
    (hfail : env.attendeeQueryFails = false) :
    processScheduledEmail env sch db =
      ((processScheduledEmailRun env sch
          { db with schedules := setStatus sch.id Status.running db.schedules }).1, none) := by
  simp [processScheduledEmail, hfail]

theorem processScheduledEmail_ret (env : Env) (sch : ScheduledEmail) (db : Db) :
    (processScheduledEmail env sch db).2 = none := by
  cases h : env.attendeeQueryFails <;> simp [processScheduledEmail, h]

theorem pendingForSlot_schedules_irrel (sch : ScheduledEmail) (db : Db)
    (x : List ScheduledEmail) :
    pendingForSlot sch { db with schedules := x } = pendingForSlot sch db := rfl

theorem processScheduledEmail_storeRel (env : Env) (sch : ScheduledEmail) (db : Db)
    (hfail : env.attendeeQueryFails = false) :
    List.Forall₂ (StoreRel env sch (pendingForSlot sch db)) db.attendees
      (processScheduledEmail env sch db).1.attendees := by
  rw [processScheduledEmail_eq_run env sch db hfail, processScheduledEmailRun_eq]
  exact dispatchLoop_storeRel env sch
    (pendingForSlot sch { db with schedules := setStatus sch.id Status.running db.schedules })
    { db with schedules := setStatus sch.id Status.running db.schedules } 0 0

theorem processScheduledEmail_mono (env : Env) (sch : ScheduledEmail) (db : Db) :
    List.Forall₂ (fun b b1 => Core b b1 ∧ FlagsLe b b1) db.attendees
      (processScheduledEmail env sch db).1.attendees := by
  cases hq : env.attendeeQueryFails
  · exact List.Forall₂.imp (fun b b1 h => ⟨h.1, h.2.1⟩)
      (processScheduledEmail_storeRel env sch db hq)
  · simp only [processScheduledEmail, hq, if_true]
    exact forall2_refl_of _ fun b _ => ⟨core_refl b, flagsLe_refl b⟩

theorem processScheduledEmail_completes (env : Env) (sch : ScheduledEmail) (db : Db)
    (hfail : env.attendeeQueryFails = false) :
    ∀ r ∈ (processScheduledEmail env sch db).1.schedules, r.id = sch.id →
      r.status = Status.completed ∧ r.lastRun = some env.now := by
  rw [processScheduledEmail_eq_run env sch db hfail, processScheduledEmailRun_eq]
  intro r hr hid
  simp only [dispatchLoop_schedules] at hr
  rcases List.mem_map.mp hr with ⟨r1, hr1, rfl⟩
  by_cases h1 : r1.id = sch.id
  · simp [h1]
  · simp [h1] at hid

theorem processScheduledEmail_sent_targets (env : Env) (sch : ScheduledEmail) (db : Db) :
    ∃ msgs : List EmailMsg,
      (processScheduledEmail env sch db).1.sent = db.sent ++ msgs ∧
      ∀ m ∈ msgs, ∃ a ∈ db.attendees,
        trackingFlag (sch.slot == 4) sch.slot a = false ∧ m.toAddr = a.email := by
  cases hq : env.attendeeQueryFails
  · rw [processScheduledEmail_eq_run env sch db hq, processScheduledEmailRun_eq]
    obtain ⟨msgs, h1, h2, h3⟩ := dispatchLoop_sent env sch
      (pendingForSlot sch { db with schedules := setStatus sch.id Status.running db.schedules })
      { db with schedules := setStatus sch.id Status.running db.schedules } 0 0
    refine ⟨msgs, h1, ?_⟩
    intro m hm
    obtain ⟨a, ha, hae⟩ := h3 m hm
    have hmem := List.mem_filter.mp ha
    refine ⟨a, hmem.1, ?_, hae⟩
    have := hmem.2
    simpa using this
  · exact ⟨[], by simp [processScheduledEmail, hq], by simp⟩

theorem processScheduledEmail_tally_eq (env : Env) (sch : ScheduledEmail) (db : Db) :
    processTally env sch db
      = ((pendingForSlot sch db).countP (fun a => env.sendSuccess a.email),
         (pendingForSlot sch db).countP (fun a => !(env.sendSuccess a.email))) := by
  rw [processTally, processScheduledEmailRun_eq]
  simp [dispatchLoop_tally, pendingForSlot_schedules_irrel]

theorem find?_setStatus (slot : Nat) (sid : Nat) (st : Status) :
    ∀ (l : List ScheduledEmail) (sch : ScheduledEmail),
      l.find? (fun r => r.slot == slot) = some sch → sid = sch.id →
      (setStatus sid st l).find? (fun r => r.slot == slot)
        = some { sch with status := st } := by
  intro l
  induction l with
  | nil => intro sch h; simp at h
  | cons r rest ih =>
    intro sch hfind hid
    cases hmatch : (r.slot == slot)
    · rw [List.find?_cons_of_neg _ (by simp [hmatch])] at hfind
      unfold setStatus
      rw [List.map_cons, List.find?_cons_of_neg, ← setStatus]
      · exact ih sch hfind hid
      · by_cases hr : r.id = sid <;> simp [hr, hmatch]
    · rw [List.find?_cons_of_pos _ (by simp_all)] at hfind
      have hr : r = sch := by injection hfind
      subst hr
      unfold setStatus
      rw [List.map_cons]
      have : (if r.id == sid then { r with status := st } else r)
          = { r with status := st } := by
        simp [hid.symm]
      rw [this, List.find?_cons_of_pos]
      simp [hmatch]

/-! Send-function level lemmas. -/

theorem sendWebinarEmail_success (env : Env) (a : Attendee) (etype : String)
    (subj : Option String) (db : Db) :
    (sendWebinarEmail env a etype subj db).2.success = env.sendSuccess a.email := by
  cases h : env.sendSuccess a.email <;> simp [sendWebinarEmail, sendEmail, h]

theorem sendPostWebinarEmail_success (env : Env) (a : Attendee)
    (subj : Option String) (db : Db) :
    (sendPostWebinarEmail env a subj db).2.success = env.sendSuccess a.email := by
  cases h : env.sendSuccess a.email <;> simp [sendPostWebinarEmail, sendEmail, h]

theorem sendWebinarEmail_attendees_failure (env : Env) (a : Attendee) (etype : String)
    (subj : Option String) (db : Db) (h : env.sendSuccess a.email = false) :
    (sendWebinarEmail env a etype subj db).1.attendees = db.attendees := by
  simp [sendWebinarEmail, sendEmail, h]

theorem sendPostWebinarEmail_attendees_failure (env : Env) (a : Attendee)
    (subj : Option String) (db : Db) (h : env.sendSuccess a.email = false) :
    (sendPostWebinarEmail env a subj db).1.attendees = db.attendees := by
  simp [sendPostWebinarEmail, sendEmail, h]

theorem sendWebinarEmail_attendees_success (env : Env) (a : Attendee) (etype : String)
    (subj : Option String) (db : Db) (h : env.sendSuccess a.email = true) :
    (sendWebinarEmail env a etype subj db).1.attendees
      = db.attendees.map (fun b => if b.id == a.id then reminderPatch etype b else b) := by
  simp [sendWebinarEmail, sendEmail, h]

theorem sendPostWebinarEmail_attendees_success (env : Env) (a : Attendee)
    (subj : Option String) (db : Db) (h : env.sendSuccess a.email = true) :
    (sendPostWebinarEmail env a subj db).1.attendees
      = db.attendees.map (fun b => if b.id == a.id then postPatch b else b) := by
  simp [sendPostWebinarEmail, sendEmail, h]

theorem sendWebinarEmail_schedules (env : Env) (a : Attendee) (etype : String)
    (subj : Option String) (db : Db) :
    (sendWebinarEmail env a etype subj db).1.schedules = db.schedules := by
  cases h : env.sendSuccess a.email <;> simp [sendWebinarEmail, sendEmail, h]

theorem sendPostWebinarEmail_schedules (env : Env) (a : Attendee)
    (subj : Option String) (db : Db) :
    (sendPostWebinarEmail env a subj db).1.schedules = db.schedules := by
  cases h : env.sendSuccess a.email <;> simp [sendPostWebinarEmail, sendEmail, h]

theorem sendWebinarEmail_sent (env : Env) (a : Attendee) (etype : String)
    (subj : Option String) (db : Db) :
    ∃ msg : EmailMsg, (sendWebinarEmail env a etype subj db).1.sent = db.sent ++ [msg] ∧
      msg.toAddr = a.email ∧ msg.toName = a.name ∧ msg.token = a.surveyToken ∧
      msg.subject = jsOrStr subj (defaultSubject etype) ∧ msg.emailType = etype := by
  refine ⟨{ toAddr := a.email, toName := a.name,
            subject := jsOrStr subj (defaultSubject etype), emailType := etype,
            token := a.surveyToken }, ?_, rfl, rfl, rfl, rfl, rfl⟩
  cases h : env.sendSuccess a.email <;> simp [sendWebinarEmail, sendEmail, h]

theorem sendPostWebinarEmail_sent (env : Env) (a : Attendee)
    (subj : Option String) (db : Db) :
    ∃ msg : EmailMsg, (sendPostWebinarEmail env a subj db).1.sent = db.sent ++ [msg] ∧
      msg.toAddr = a.email ∧ msg.toName = a.name ∧ msg.token = a.surveyToken ∧
      msg.subject = jsOrStr subj (defaultSubject ("postWebinar")) ∧
      msg.emailType = "postWebinar" := by
  refine ⟨{ toAddr := a.email, toName := a.name,
            subject := jsOrStr subj (defaultSubject ("postWebinar")),
            emailType := "postWebinar",
            token := a.surveyToken }, ?_, rfl, rfl, rfl, rfl, rfl⟩
  cases h : env.sendSuccess a.email <;> simp [sendPostWebinarEmail, sendEmail, h]

/-! More generic list helpers. -/

theorem forall2_imp_mem {α β : Type} {R S : α → β → Prop} :
    ∀ {l1 : List α} {l2 : List β}, List.Forall₂ R l1 l2 →
      (∀ a b, a ∈ l1 → R a b → S a b) → List.Forall₂ S l1 l2 := by
  intro l1 l2 h
  induction h with
  | nil => intro _; exact List.Forall₂.nil
  | @cons a b t1 t2 hab _ ih =>
    intro hS
    exact List.Forall₂.cons (hS a b (List.mem_cons_self a t1) hab)
      (ih fun x y hx => hS x y (List.mem_cons_of_mem a hx))

theorem map_ite_noop {α : Type} (p : α → Bool) (f : α → α) :
    ∀ l : List α, (∀ x ∈ l, p x = false) →
      (l.map fun x => if p x then f x else x) = l := by
  intro l
  induction l with
  | nil => intro _; rfl
  | cons a rest ih =>
    intro h
    have ha := h a (List.mem_cons_self a rest)
    simp only [List.map_cons, ha, Bool.false_eq_true, if_false]
    rw [ih fun x hx => h x (List.mem_cons_of_mem a hx)]

theorem map_congr_mem {α β : Type} (f g : α → β) :
    ∀ l : List α, (∀ x ∈ l, f x = g x) → l.map f = l.map g := by
  intro l
  induction l with
  | nil => intro _; rfl
  | cons a rest ih =>
    intro h
    simp only [List.map_cons, h a (List.mem_cons_self a rest)]
    rw [ih fun x hx => h x (List.mem_cons_of_mem a hx)]

theorem countP_congr_mem {α : Type} (p q : α → Bool) :
    ∀ l : List α, (∀ x ∈ l, p x = q x) → l.countP p = l.countP q := by
  intro l
  induction l with
  | nil => intro _; rfl
  | cons a rest ih =>
    intro h
    simp only [List.countP_cons, h a (List.mem_cons_self a rest),
      ih fun x hx => h x (List.mem_cons_of_mem a hx)]

theorem flagUpd_token (env : Env) (sch : ScheduledEmail) (a b : Attendee) :
    (flagUpd env sch a b).surveyToken = b.surveyToken := by
  unfold flagUpd postPatch reminderPatch
  cases hsucc : env.sendSuccess a.email <;>
    by_cases hid : b.id = a.id <;>
    cases hs4 : (sch.slot == 4) <;>
    simp [hsucc, hid, hs4]

theorem flagUpd_id (env : Env) (sch : ScheduledEmail) (a b : Attendee) :
    (flagUpd env sch a b).id = b.id := by
  unfold flagUpd postPatch reminderPatch
  cases hsucc : env.sendSuccess a.email <;>
    by_cases hid : b.id = a.id <;>
    cases hs4 : (sch.slot == 4) <;>
    simp [hsucc, hid, hs4]

theorem mem_setStatus_status (sid : Nat) (st : Status) (l : List ScheduledEmail) :
    ∀ r ∈ setStatus sid st l, r.id = sid → r.status = st := by
  intro r hr hid
  rcases List.mem_map.mp hr with ⟨r0, hr0, rfl⟩
  by_cases h : r0.id = sid
  · simp [h]
  · simp [h] at hid

theorem setStatus_rel (sid : Nat) (st : Status) (l : List ScheduledEmail) :
    List.Forall₂ (fun r r1 => r1.id = r.id ∧ r1.slot = r.slot ∧
      r1.scheduledTime = r.scheduledTime ∧ r1.subject = r.subject ∧
      r1.enabled = r.enabled ∧ r1.lastRun = r.lastRun ∧ (r.id ≠ sid → r1 = r))
      l (setStatus sid st l) := by
  unfold setStatus
  apply forall2_of_map
  intro r _
  by_cases h : r.id = sid <;> simp [h]

/-! ## Concrete fixtures for witnesses and concrete-scenario claims -/

/-- A registered attendee with all flags false and a token present. -/
def attFix1 : Attendee :=
  { id := "a1", name := "Asha", email := "a1@example.com", surveyToken := some ("tok-a1"),
    emailSent := false, reminder1Sent := false, reminder2Sent := false,
    reminder3Sent := false, postWebinarSent := false }

def attFix2 : Attendee :=
  { id := "a2", name := "Bibek", email := "a2@example.com", surveyToken := some ("tok-a2"),
    emailSent := false, reminder1Sent := false, reminder2Sent := false,
    reminder3Sent := false, postWebinarSent := false }

def attFix3 : Attendee :=
  { id := "a3", name := "Chandra", email := "a3@example.com", surveyToken := some ("tok-a3"),
    emailSent := false, reminder1Sent := false, reminder2Sent := false,
    reminder3Sent := false, postWebinarSent := false }

/-- An attendee still lacking a survey token. -/
def attNoTok : Attendee :=
  { id := "a4", name := "Devi", email := "a4@example.com", surveyToken := none,
    emailSent := false, reminder1Sent := false, reminder2Sent := false,
    reminder3Sent := false, postWebinarSent := false }

/-- Slot 1, enabled, due one hour before `envAllOk.now`, pending. -/
def schFix1 : ScheduledEmail :=
  { id := 1, slot := 1, scheduledTime := some 1700000000000, subject := none,
    enabled := true, status := Status.pending, lastRun := none }

/-- Transport always succeeds; entropy is an all-zero byte stream; the clock
reads one hour after `schFix1.scheduledTime`. -/
def envAllOk : Env :=
  { sendSuccess := fun _ => true, randomBytes := fun _ => List.replicate 32 0,
    now := 1700003600000, attendeeQueryFails := false }

/-- Transport always fails. -/
def envAllFail : Env := { envAllOk with sendSuccess := fun _ => false }

/-- The pending-recipient query throws. -/
def envQueryFails : Env := { envAllOk with attendeeQueryFails := true }

/-- Transport fails for `attFix2` only. -/
def envFailA2 : Env :=
  { envAllOk with sendSuccess := fun e => !(e == "a2@example.com") }

def dbFix : Db :=
  { attendees := [attFix1, attFix2, attFix3], schedules := [schFix1],
    sent := [], entropyUsed := 0 }

/-! ## Claims -/

/-- C3: if the pending-recipient query throws after the slot was marked
running, the catch block returns the schedule to pending — never completed —
so the next poll retries; no email was sent, no attendee flag changed, and
`lastRun` is untouched.  The function still resolves with `undefined`. -/
theorem C3_crash_safety (env : Env) (sch : ScheduledEmail) (db : Db)
    (hfail : env.attendeeQueryFails = true) :
    (processScheduledEmail env sch db).1.attendees = db.attendees ∧
    (processScheduledEmail env sch db).1.sent = db.sent ∧
    (processScheduledEmail env sch db).2 = none ∧
    (∀ r ∈ (processScheduledEmail env sch db).1.schedules, r.id = sch.id →
      r.status = Status.pending) ∧
    List.Forall₂ (fun r r1 => r1.id = r.id ∧ r1.lastRun = r.lastRun ∧
      (r.id ≠ sch.id → r1 = r))
      db.schedules (processScheduledEmail env sch db).1.schedules := by
  have heq : processScheduledEmail env sch db
      = ({ db with
            schedules := setStatus sch.id Status.pending (setStatus sch.id Status.running db.schedules) },
         none) := by
    simp [processScheduledEmail, hfail]
  rw [heq]
  refine ⟨rfl, rfl, rfl, ?_, ?_⟩
  · intro r hr hid
    exact mem_setStatus_status sch.id Status.pending _ r hr hid
  · refine forall2_trans_comp ?_ (setStatus_rel sch.id Status.running db.schedules)
      (setStatus_rel sch.id Status.pending _)
    intro r rm r1 hab hbc
    obtain ⟨hi1, -, -, -, -, hl1, hf1⟩ := hab
    obtain ⟨hi2, -, -, -, -, hl2, hf2⟩ := hbc
    refine ⟨hi2.trans hi1, hl2.trans hl1, ?_⟩
    intro hne
    have hm : rm = r := hf1 hne
    rw [hf2 (by rw [hi1]; exact hne), hm]

/-- C3 witness at a concrete failing environment. -/
theorem C3_crash_safety_witness :
    envQueryFails.attendeeQueryFails = true ∧
    (processScheduledEmail envQueryFails schFix1 dbFix).1.attendees = dbFix.attendees :=
  ⟨rfl, (C3_crash_safety envQueryFails schFix1 dbFix rfl).1⟩

theorem sendReminderEmail_def (env : Env) (a : Attendee) (slot : Nat)
    (subj : Option String) (db : Db) :
    sendReminderEmail env a slot subj db
      = sendWebinarEmail env a ("reminder" ++ toString slot) subj db := rfl

/-- C10: a successful scheduled reminder send (slots 1-3) sets the attendee's
general `emailSent` flag in addition to the slot flag `reminder{n}Sent`; the
post-webinar send sets only `postWebinarSent` and leaves every other field of
the row unchanged; rows with other ids are untouched. -/
theorem C10_emailSent_side_effect (env : Env) (a : Attendee) (subj : Option String)
    (db : Db) (n : Nat) (hn : n = 1 ∨ n = 2 ∨ n = 3)
    (hsucc : env.sendSuccess a.email = true) :
    List.Forall₂ (fun b b1 =>
        (b.id = a.id → b1.emailSent = true ∧ trackingFlag false n b1 = true) ∧
        (b.id ≠ a.id → b1 = b))
      db.attendees (sendReminderEmail env a n subj db).1.attendees ∧
    List.Forall₂ (fun b b1 =>
        (b.id = a.id → b1 = { b with postWebinarSent := true }) ∧
        (b.id ≠ a.id → b1 = b))
      db.attendees (sendPostWebinarEmail env a subj db).1.attendees := by
  constructor
  · rw [sendReminderEmail_def, sendWebinarEmail_attendees_success env a _ subj db hsucc]
    apply forall2_of_map
    intro b _
    by_cases hid : b.id = a.id
    · refine ⟨fun _ => ?_, fun h => absurd hid h⟩
      rcases hn with rfl | rfl | rfl <;>
        simp [hid, reminderPatch, trackingFlag, emailTypeFor_one, emailTypeFor_two,
          emailTypeFor_three]
    · simp [hid]
  · rw [sendPostWebinarEmail_attendees_success env a subj db hsucc]
    apply forall2_of_map
    intro b _
    by_cases hid : b.id = a.id
    · refine ⟨fun _ => ?_, fun h => absurd hid h⟩
      simp [hid, postPatch]
    · simp [hid]

/-- C10 witness: a successful slot-1 reminder to `attFix1`. -/
theorem C10_emailSent_side_effect_witness :
    (1 = 1 ∨ 1 = 2 ∨ 1 = 3) ∧ envAllOk.sendSuccess attFix1.email = true ∧
    List.Forall₂ (fun b b1 =>
        (b.id = attFix1.id → b1.emailSent = true ∧ trackingFlag false 1 b1 = true) ∧
        (b.id ≠ attFix1.id → b1 = b))
      dbFix.attendees (sendReminderEmail envAllOk attFix1 1 none dbFix).1.attendees :=
  ⟨Or.inl rfl, rfl,
    (C10_emailSent_side_effect envAllOk attFix1 none dbFix 1 (Or.inl rfl) rfl).1⟩

/-- C2: a sent-flag is written only when the transport result reports
success (a failed send leaves the attendee store untouched, for both the
reminder and the post-webinar path); a whole dispatch run never moves any
flag from true back to false (and never edits id, name or email); and every
email a run sends goes to an attendee whose tracking flag for the slot was
false — a re-run only targets still-pending recipients. -/
theorem C2_flag_once_invariant :
    (∀ (env : Env) (a : Attendee) (etype : String) (subj : Option String) (db : Db),
      (sendWebinarEmail env a etype subj db).2.success = false →
      (sendWebinarEmail env a etype subj db).1.attendees = db.attendees) ∧
    (∀ (env : Env) (a : Attendee) (subj : Option String) (db : Db),
      (sendPostWebinarEmail env a subj db).2.success = false →
      (sendPostWebinarEmail env a subj db).1.attendees = db.attendees) ∧
    (∀ (env : Env) (sch : ScheduledEmail) (db : Db),
      List.Forall₂ (fun b b1 => Core b b1 ∧ FlagsLe b b1) db.attendees
        (processScheduledEmail env sch db).1.attendees) ∧
    (∀ (env : Env) (sch : ScheduledEmail) (db : Db),
      ∃ msgs, (processScheduledEmail env sch db).1.sent = db.sent ++ msgs ∧
        ∀ m ∈ msgs, ∃ a ∈ db.attendees,
          trackingFlag (sch.slot == 4) sch.slot a = false ∧ m.toAddr = a.email) := by
  refine ⟨?_, ?_, ?_, ?_⟩
  · intro env a etype subj db h
    rw [sendWebinarEmail_success] at h
    exact sendWebinarEmail_attendees_failure env a etype subj db h
  · intro env a subj db h
    rw [sendPostWebinarEmail_success] at h
    exact sendPostWebinarEmail_attendees_failure env a subj db h
  · intro env sch db
    exact processScheduledEmail_mono env sch db
  · intro env sch db
    exact processScheduledEmail_sent_targets env sch db

/-- C2 witness: a failed send leaves the store untouched. -/
theorem C2_flag_once_invariant_witness :
    (sendWebinarEmail envAllFail attFix1 ("reminder1") none dbFix).2.success = false ∧
    (sendWebinarEmail envAllFail attFix1 ("reminder1") none dbFix).1.attendees
      = dbFix.attendees :=
  ⟨by decide,
    C2_flag_once_invariant.1 envAllFail attFix1 ("reminder1") none dbFix (by decide)⟩

theorem idFrame_comp {sid : Nat} (r rm r1 : ScheduledEmail)
    (hab : rm.id = r.id ∧ (r.id ≠ sid → rm = r))
    (hbc : r1.id = rm.id ∧ (rm.id ≠ sid → r1 = rm)) :
    r1.id = r.id ∧ (r.id ≠ sid → r1 = r) := by
  refine ⟨hbc.1.trans hab.1, ?_⟩
  intro hne
  rw [hbc.2 (by rw [hab.1]; exact hne), hab.2 hne]

theorem idKeyedMap_rel (sid : Nat) (f : ScheduledEmail → ScheduledEmail)
    (hf : ∀ r, (f r).id = r.id) (l : List ScheduledEmail) :
    List.Forall₂ (fun r r1 => r1.id = r.id ∧ (r.id ≠ sid → r1 = r)) l
      (l.map (fun r => if r.id == sid then f r else r)) := by
  apply forall2_of_map
  intro r _
  by_cases h : r.id = sid <;> simp [h, hf]

theorem processScheduledEmail_schedules_rel (env : Env) (sch : ScheduledEmail) (db : Db) :
    List.Forall₂ (fun r r1 => r1.id = r.id ∧ (r.id ≠ sch.id → r1 = r))
      db.schedules (processScheduledEmail env sch db).1.schedules := by
  have hset : List.Forall₂ (fun r r1 => r1.id = r.id ∧ (r.id ≠ sch.id → r1 = r))
      db.schedules (setStatus sch.id Status.running db.schedules) :=
    List.Forall₂.imp (fun r r1 h => ⟨h.1, h.2.2.2.2.2.2⟩)
      (setStatus_rel sch.id Status.running db.schedules)
  cases hq : env.attendeeQueryFails
  · rw [processScheduledEmail_eq_run env sch db hq, processScheduledEmailRun_eq]
    simp only [dispatchLoop_schedules]
    exact forall2_trans_comp idFrame_comp hset
      (idKeyedMap_rel sch.id
        (fun r => { r with status := Status.completed, lastRun := some env.now })
        (fun r => rfl) _)
  · have heq : processScheduledEmail env sch db
        = ({ db with
              schedules := setStatus sch.id Status.pending (setStatus sch.id Status.running db.schedules) },
           none) := by
      simp [processScheduledEmail, hq]
    rw [heq]
    exact forall2_trans_comp idFrame_comp hset
      (List.Forall₂.imp (fun r r1 h => ⟨h.1, h.2.2.2.2.2.2⟩)
        (setStatus_rel sch.id Status.pending _))

theorem foldProcess_frame (env : Env) (S : List Nat) :
    ∀ (l : List ScheduledEmail) (db : Db), (∀ s ∈ l, s.id ∈ S) →
      List.Forall₂ (fun r r1 => r1.id = r.id ∧ (r.id ∉ S → r1 = r)) db.schedules
        (l.foldl (fun acc s => (processScheduledEmail env s acc).1) db).schedules := by
  intro l
  induction l with
  | nil =>
    intro db _
    exact forall2_refl_of _ fun r _ => ⟨rfl, fun _ => rfl⟩
  | cons s rest ih =>
    intro db h
    rw [List.foldl_cons]
    refine forall2_trans_comp ?_ (processScheduledEmail_schedules_rel env s db)
      (ih ((processScheduledEmail env s db).1) fun x hx => h x (List.mem_cons_of_mem s hx))
    intro r rm r1 hab hbc
    refine ⟨hbc.1.trans hab.1, ?_⟩
    intro hnS
    have h1 : rm = r := hab.2 fun heq => hnS (heq ▸ h s (List.mem_cons_self s rest))
    rw [hbc.2 (by rw [hab.1]; exact hnS), h1]

theorem mem_dueSlots_iff (env : Env) (db : Db) (s : ScheduledEmail) :
    s ∈ dueSlots env db ↔ (s ∈ db.schedules ∧ s.enabled = true ∧
      s.status = Status.pending ∧ ∃ t, s.scheduledTime = some t ∧ t ≤ env.now) := by
  simp only [dueSlots, List.mem_filter, Bool.and_eq_true, beq_iff_eq]
  constructor
  · rintro ⟨hmem, ⟨hen, hst⟩, hdue⟩
    refine ⟨hmem, hen, hst, ?_⟩
    cases ht : s.scheduledTime with
    | none => rw [ht] at hdue; simp at hdue
    | some t =>
      rw [ht] at hdue
      exact ⟨t, rfl, by simpa using hdue⟩
  · rintro ⟨hmem, hen, hst, ⟨t, ht, hle⟩⟩
    exact ⟨hmem, ⟨hen, hst⟩, by rw [ht]; simpa using hle⟩

/-- C5: a poll tick queries exactly the slots with `enabled=true`,
`status=pending` and a non-null due time `<= now`, and processes precisely
that list sequentially (a left fold); a slot that is disabled, running,
completed, or due in the future is never auto-dispatched — given the unique
schedule ids of the store, its row is untouched by the whole tick. -/
theorem C5_poll_eligibility (env : Env) (db : Db)
    (hnodup : (db.schedules.map (fun r => r.id)).Nodup) :
    (∀ s, s ∈ dueSlots env db ↔ (s ∈ db.schedules ∧ s.enabled = true ∧
        s.status = Status.pending ∧ ∃ t, s.scheduledTime = some t ∧ t ≤ env.now)) ∧
    (checkAndSendScheduledEmails env db
        = (dueSlots env db).foldl (fun acc s => (processScheduledEmail env s acc).1) db) ∧
    List.Forall₂ (fun r r1 => r1.id = r.id ∧
        (¬(r.enabled = true ∧ r.status = Status.pending ∧
            ∃ t, r.scheduledTime = some t ∧ t ≤ env.now) → r1 = r))
      db.schedules (checkAndSendScheduledEmails env db).schedules := by
  refine ⟨fun s => mem_dueSlots_iff env db s, rfl, ?_⟩
  have hfold := foldProcess_frame env ((dueSlots env db).map (fun s => s.id))
    (dueSlots env db) db (fun s hs => List.mem_map_of_mem _ hs)
  refine forall2_imp_mem hfold ?_
  intro r r1 hr hrel
  refine ⟨hrel.1, ?_⟩
  intro hne
  apply hrel.2
  intro hidS
  rcases List.mem_map.mp hidS with ⟨s, hs, hsid⟩
  have hs_mem : s ∈ db.schedules := ((mem_dueSlots_iff env db s).mp hs).1
  have hsr : s = r := List.inj_on_of_nodup_map hnodup hs_mem hr hsid
  have helig := (mem_dueSlots_iff env db s).mp hs
  rw [hsr] at helig
  exact hne ⟨helig.2.1, helig.2.2.1, helig.2.2.2⟩

/-- C5 witness: the fixture store with one due slot. -/
theorem C5_poll_eligibility_witness :
    ((dbFix.schedules.map (fun r => r.id)).Nodup) ∧
    (schFix1 ∈ dueSlots envAllOk dbFix ↔ (schFix1 ∈ dbFix.schedules ∧
      schFix1.enabled = true ∧ schFix1.status = Status.pending ∧
      ∃ t, schFix1.scheduledTime = some t ∧ t ≤ envAllOk.now)) :=
  ⟨by decide, (C5_poll_eligibility envAllOk dbFix (by decide)).1 schFix1⟩

theorem trigger_found_eq (env : Env) (slot : Nat) (db : Db) (sch : ScheduledEmail)
    (hfind : db.schedules.find? (fun r => r.slot == slot) = some sch) :
    triggerScheduledEmail env slot db
      = ((processScheduledEmail env { sch with status := Status.pending }
            { db with schedules := setStatus sch.id Status.pending db.schedules }).1,
         Except.ok { sch with status := Status.pending }) := by
  have hfind2 := find?_setStatus slot sch.id Status.pending db.schedules sch hfind rfl
  rcases hpe : processScheduledEmail env { sch with status := Status.pending }
      { db with schedules := setStatus sch.id Status.pending db.schedules } with ⟨db2, ret⟩
  simp [triggerScheduledEmail, hfind, hfind2, hpe]

/-- C6: `triggerNow` on an unknown slot throws not-found before any state
mutation; on an existing slot it forces the row to pending and immediately
invokes `processSlot` on the re-fetched row — with no condition on `dueAt`
or `enabled`, so a disabled or future-due slot is dispatched all the same —
and every email the call sends goes to an attendee whose sent-flag for the
slot was still false. -/
theorem C6_trigger_now (env : Env) (slot : Nat) (db : Db) :
    (db.schedules.find? (fun r => r.slot == slot) = none →
      triggerScheduledEmail env slot db
        = (db, Except.error ("Scheduled email slot " ++ toString slot ++ " not found"))) ∧
    (∀ sch, db.schedules.find? (fun r => r.slot == slot) = some sch →
      triggerScheduledEmail env slot db
        = ((processScheduledEmail env { sch with status := Status.pending }
              { db with schedules := setStatus sch.id Status.pending db.schedules }).1,
           Except.ok { sch with status := Status.pending })) ∧
    (∃ msgs, (triggerScheduledEmail env slot db).1.sent = db.sent ++ msgs ∧
      ∀ m ∈ msgs, ∃ a ∈ db.attendees,
        trackingFlag (slot == 4) slot a = false ∧ m.toAddr = a.email) := by
  refine ⟨?_, ?_, ?_⟩
  · intro hnone
    simp [triggerScheduledEmail, hnone]
  · intro sch hfind
    exact trigger_found_eq env slot db sch hfind
  · cases hfind : db.schedules.find? (fun r => r.slot == slot) with
    | none =>
      refine ⟨[], ?_, by simp⟩
      simp [triggerScheduledEmail, hfind]
    | some sch =>
      have hslot_eq : sch.slot = slot := by
        have := List.find?_some hfind
        simpa using this
      rw [trigger_found_eq env slot db sch hfind]
      obtain ⟨msgs, h1, h2⟩ := processScheduledEmail_sent_targets env
        { sch with status := Status.pending }
        { db with schedules := setStatus sch.id Status.pending db.schedules }
      refine ⟨msgs, h1, ?_⟩
      intro m hm
      obtain ⟨a, ha, hflag, hto⟩ := h2 m hm
      have hflag2 : trackingFlag (sch.slot == 4) sch.slot a = false := hflag
      rw [hslot_eq] at hflag2
      exact ⟨a, ha, hflag2, hto⟩

/-- C6 witness: triggering slot 1 on the fixture store. -/
theorem C6_trigger_now_witness :
    (dbFix.schedules.find? (fun r => r.slot == 1) = some schFix1) ∧
    triggerScheduledEmail envAllOk 1 dbFix
      = ((processScheduledEmail envAllOk { schFix1 with status := Status.pending }
            { dbFix with schedules := setStatus schFix1.id Status.pending dbFix.schedules }).1,
         Except.ok { schFix1 with status := Status.pending }) :=
  ⟨by decide, (C6_trigger_now envAllOk 1 dbFix).2.1 schFix1 (by decide)⟩

theorem countP_filter_eq {α : Type} (p q : α → Bool) :
    ∀ l : List α, (l.filter q).countP p = l.countP (fun a => p a && q a) := by
  intro l
  induction l with
  | nil => rfl
  | cons a rest ih =>
    cases hq : q a <;> cases hp : p a <;>
      simp [List.filter_cons, List.countP_cons, hq, hp, ih]

/-- C9: during dispatch a recipient lacking a survey token is never skipped:
the token — `crypto.randomBytes(32)` hex, 64 lowercase hex characters — is
minted and persisted to the attendee row before the send, and the message
handed to the transport embeds exactly that token; a recipient who already
has a token keeps it unchanged (no row token changes at all) and the message
embeds the existing token; the loop hands exactly one message per pending
recipient to the transport. -/
theorem C9_token_minting (env : Env) (sch : ScheduledEmail) (a : Attendee) (db : Db)
    (hlen : ∀ n, (env.randomBytes n).length = 32) :
    (a.surveyToken = none →
      (∀ b1 ∈ (processRecipient env sch a db).1.attendees, b1.id = a.id →
        b1.surveyToken = some (bytesToHex (env.randomBytes db.entropyUsed))) ∧
      (bytesToHex (env.randomBytes db.entropyUsed)).length = 64 ∧
      (∀ c ∈ (bytesToHex (env.randomBytes db.entropyUsed)).data, isLowerHexChar c = true) ∧
      (∃ msg, (processRecipient env sch a db).1.sent = db.sent ++ [msg] ∧
        msg.toAddr = a.email ∧
        msg.token = some (bytesToHex (env.randomBytes db.entropyUsed)))) ∧
    (∀ t, a.surveyToken = some t →
      ((processRecipient env sch a db).1.attendees.map (fun b => b.surveyToken)
          = db.attendees.map (fun b => b.surveyToken)) ∧
      (∃ msg, (processRecipient env sch a db).1.sent = db.sent ++ [msg] ∧
        msg.toAddr = a.email ∧ msg.token = some t)) ∧
    (∀ (l : List Attendee) (s f : Nat),
      (dispatchLoop env sch l db s f).1.sent.length = db.sent.length + l.length) := by
  refine ⟨?_, ?_, ?_⟩
  · intro htok
    refine ⟨?_, ?_, bytesToHex_isHex _, ?_⟩
    · intro b1 hb1 hid
      rw [processRecipient_attendees] at hb1
      rcases List.mem_map.mp hb1 with ⟨bt, hbt, rfl⟩
      rcases List.mem_map.mp hbt with ⟨b0, hb0, rfl⟩
      have hid0 : b0.id = a.id := by
        have h1 := flagUpd_id env sch a (tokenUpd env a db.entropyUsed b0)
        have h2 := (tokenUpd_fields env a db.entropyUsed b0).1
        rw [h1, h2] at hid
        exact hid
      rw [flagUpd_token]
      simp [tokenUpd, htok, hid0]
    · rw [bytesToHex_length, hlen]
    · obtain ⟨msg, h1, h2, h3, h4⟩ := processRecipient_sent env sch a db
      refine ⟨msg, h1, h2, ?_⟩
      rw [h4]
      simp [tokenAfter, htok]
  · intro t htok
    constructor
    · rw [processRecipient_attendees, List.map_map, List.map_map]
      apply map_congr_mem
      intro b _
      show (flagUpd env sch a (tokenUpd env a db.entropyUsed b)).surveyToken = b.surveyToken
      rw [flagUpd_token]
      simp [tokenUpd, htok]
    · obtain ⟨msg, h1, h2, h3, h4⟩ := processRecipient_sent env sch a db
      refine ⟨msg, h1, h2, ?_⟩
      rw [h4]
      simp [tokenAfter, htok]
  · intro l s f
    obtain ⟨msgs, h1, h2, h3⟩ := dispatchLoop_sent env sch l db s f
    rw [h1]
    simp [h2]

/-- Store with the token-less attendee, for the C9 witness. -/
def dbTok : Db :=
  { attendees := [attNoTok], schedules := [schFix1], sent := [], entropyUsed := 0 }

/-- C9 witness: a token is minted for the token-less fixture attendee. -/
theorem C9_token_minting_witness :
    (∀ n, (envAllOk.randomBytes n).length = 32) ∧ attNoTok.surveyToken = none ∧
    (∀ b1 ∈ (processRecipient envAllOk schFix1 attNoTok dbTok).1.attendees,
      b1.id = attNoTok.id →
      b1.surveyToken = some (bytesToHex (envAllOk.randomBytes dbTok.entropyUsed))) :=
  ⟨fun n => by simp [envAllOk], rfl,
    ((C9_token_minting envAllOk schFix1 attNoTok dbTok
      (fun n => by simp [envAllOk])).1 rfl).1⟩

/-- C4: with the pending-recipient set of size N and the transport failing
for exactly one recipient, the batch is not aborted: the run finishes with
the row completed (and `lastRun` set), the logged tally is
`{successCount: N-1, failureCount: 1}`, the number of set tracking flags
grows by exactly N-1, and no flag is ever cleared.  Requires the store
invariant that attendee ids are unique (the database primary key). -/
theorem C4_partial_failure (env : Env) (sch : ScheduledEmail) (db : Db) (N : Nat)
    (hfail : env.attendeeQueryFails = false)
    (hslot : ValidSlot sch.slot)
    (hnodup : (db.attendees.map (fun a => a.id)).Nodup)
    (hN : (pendingForSlot sch db).length = N)
    (hone : (pendingForSlot sch db).countP (fun a => !(env.sendSuccess a.email)) = 1) :
    processTally env sch db = (N - 1, 1) ∧
    (∀ r ∈ (processScheduledEmail env sch db).1.schedules, r.id = sch.id →
      r.status = Status.completed ∧ r.lastRun = some env.now) ∧
    ((processScheduledEmail env sch db).1.attendees.countP
        (fun b => trackingFlag (sch.slot == 4) sch.slot b)
      = db.attendees.countP (fun b => trackingFlag (sch.slot == 4) sch.slot b) + (N - 1)) ∧
    List.Forall₂ FlagsLe db.attendees (processScheduledEmail env sch db).1.attendees := by
  have hsplit := countP_add_countP_not (fun a => env.sendSuccess a.email) (pendingForSlot sch db)
  have hsucc_count : (pendingForSlot sch db).countP (fun a => env.sendSuccess a.email) = N - 1 := by
    omega
  refine ⟨?_, processScheduledEmail_completes env sch db hfail, ?_, ?_⟩
  · rw [processScheduledEmail_tally_eq, hsucc_count, hone]
  · have hrel := processScheduledEmail_storeRel env sch db hfail
    have hpoint : ∀ (b b1 : Attendee), b ∈ db.attendees →
        StoreRel env sch (pendingForSlot sch db) b b1 →
        trackingFlag (sch.slot == 4) sch.slot b1
          = (trackingFlag (sch.slot == 4) sch.slot b ||
             (!(trackingFlag (sch.slot == 4) sch.slot b) && env.sendSuccess b.email)) := by
      intro b b1 hb hS
      by_cases hf : trackingFlag (sch.slot == 4) sch.slot b = true
      · have hnom : ∀ x ∈ pendingForSlot sch db, x.id ≠ b.id := by
          intro x hx heq
          have hxmem : x ∈ db.attendees := (List.mem_filter.mp hx).1
          have hxflag := (List.mem_filter.mp hx).2
          have hxb : x = b := List.inj_on_of_nodup_map hnodup hxmem hb heq
          rw [hxb] at hxflag
          simp [hf] at hxflag
        have hb1 : b1 = b := hS.2.2.1 hnom
        rw [hb1, hf]
        simp
      · have hfb : trackingFlag (sch.slot == 4) sch.slot b = false :=
          Bool.eq_false_iff.mpr hf
        have hbpend : b ∈ pendingForSlot sch db := by
          refine List.mem_filter.mpr ⟨hb, ?_⟩
          simp [hfb]
        cases hsb : env.sendSuccess b.email
        · have heq1 : trackingFlag (sch.slot == 4) sch.slot b1
              = trackingFlag (sch.slot == 4) sch.slot b := by
            refine hS.2.2.2.2 ?_
            intro x hx hxid
            have hxmem : x ∈ db.attendees := (List.mem_filter.mp hx).1
            have hxb : x = b := List.inj_on_of_nodup_map hnodup hxmem hb hxid
            rw [hxb]
            exact hsb
          rw [heq1, hfb]
          simp
        · have heq1 : trackingFlag (sch.slot == 4) sch.slot b1 = true :=
            hS.2.2.2.1 hslot ⟨b, hbpend, rfl, hsb⟩
          rw [heq1, hfb]
          simp
    have hcount := countP_eq_of_forall2 hrel hpoint
    rw [hcount]
    have hdisj := countP_or_disjoint
      (fun b => trackingFlag (sch.slot == 4) sch.slot b)
      (fun b => !(trackingFlag (sch.slot == 4) sch.slot b) && env.sendSuccess b.email)
      db.attendees
      (fun x _ => by cases hx : trackingFlag (sch.slot == 4) sch.slot x <;> simp [hx])
    rw [hdisj]
    have hfilter : db.attendees.countP
        (fun b => !(trackingFlag (sch.slot == 4) sch.slot b) && env.sendSuccess b.email)
        = (pendingForSlot sch db).countP (fun a => env.sendSuccess a.email) := by
      unfold pendingForSlot
      rw [countP_filter_eq]
      apply countP_congr_mem
      intro x _
      cases hx : trackingFlag (sch.slot == 4) sch.slot x <;>
        cases hsx : env.sendSuccess x.email <;> simp [hx, hsx]
    rw [hfilter, hsucc_count]
  · exact List.Forall₂.imp (fun b b1 h => h.2.1)
      (processScheduledEmail_storeRel env sch db hfail)

/-- C4 witness: three pending recipients, the transport failing for the
second one only. -/
theorem C4_partial_failure_witness :
    ((pendingForSlot schFix1 dbFix).length = 3) ∧
    ((pendingForSlot schFix1 dbFix).countP
      (fun a => !(envFailA2.sendSuccess a.email)) = 1) ∧
    processTally envFailA2 schFix1 dbFix = (3 - 1, 1) :=
  ⟨by decide, by decide,
    (C4_partial_failure envFailA2 schFix1 dbFix 3 rfl (Or.inl rfl)
      (by decide) (by decide) (by decide)).1⟩

/-- C1 (amended): the concrete scenario.  Slot 1 enabled, due one hour in
the past, pending, three attendees with `reminder1Sent=false`; the poll tick
selects exactly that slot, `processSlot` runs, the transport succeeds for
all three: all three tracking flags become true, the row ends
`status=completed` with `lastRun` set, exactly three messages were handed to
the transport and the run tally is `(3, 0)` — logged, not returned: the JS
function resolves with `undefined`, modelled as `none`. -/
theorem C1_concrete_scenario :
    dueSlots envAllOk dbFix = [schFix1] ∧
    (checkAndSendScheduledEmails envAllOk dbFix).attendees.map (fun b => b.reminder1Sent)
      = [true, true, true] ∧
    (checkAndSendScheduledEmails envAllOk dbFix).schedules
      = [{ schFix1 with status := Status.completed, lastRun := some 1700003600000 }] ∧
    processTally envAllOk schFix1 dbFix = (3, 0) ∧
    (checkAndSendScheduledEmails envAllOk dbFix).sent.length = 3 ∧
    (processScheduledEmail envAllOk schFix1 dbFix).2 = none := by
  decide

/-- C1 counterexample: in that very scenario `processSlot` does NOT return
the summary `{successCount: 3, failureCount: 0}` to its caller — its body
has no return statement, so the caller receives `undefined` (`none`). -/
theorem C1_counterexample :
    ¬((processScheduledEmail envAllOk schFix1 dbFix).2
        = some { successCount := 3, failureCount := 0 }) := by
  decide

theorem validSlot_beq (slotNum : Nat) :
    (slotNum == 1 || slotNum == 2 || slotNum == 3 || slotNum == 4) = true
      ↔ ValidSlot slotNum := by
  simp [ValidSlot]
  tauto

theorem sendWebinarEmail_attendees_noop (env : Env) (a : Attendee) (etype : String)
    (subj : Option String) (db : Db) (hid : ∀ b ∈ db.attendees, b.id ≠ a.id) :
    (sendWebinarEmail env a etype subj db).1.attendees = db.attendees := by
  cases hsucc : env.sendSuccess a.email
  · exact sendWebinarEmail_attendees_failure env a etype subj db hsucc
  · rw [sendWebinarEmail_attendees_success env a etype subj db hsucc]
    apply map_ite_noop
    intro x hx
    simp [hid x hx]

theorem sendPostWebinarEmail_attendees_noop (env : Env) (a : Attendee)
    (subj : Option String) (db : Db) (hid : ∀ b ∈ db.attendees, b.id ≠ a.id) :
    (sendPostWebinarEmail env a subj db).1.attendees = db.attendees := by
  cases hsucc : env.sendSuccess a.email
  · exact sendPostWebinarEmail_attendees_failure env a subj db hsucc
  · rw [sendPostWebinarEmail_attendees_success env a subj db hsucc]
    apply map_ite_noop
    intro x hx
    simp [hid x hx]

/-- C7 (amended): the test-send route sends exactly one email to the
operator-resolved address through the shared send routine; that routine on
success attempts the flag update for the synthetic attendee id `test`, so
the guarantee is conditional on no stored attendee having id `test` (true
of every store whose ids are generated by the database): then no attendee
row changes, and the schedule store — status and `lastRun` included — is
untouched; an invalid slot changes nothing and sends nothing. -/
theorem C7_test_send_isolated (env : Env) (slotNum : Nat)
    (testEmailBody testNameBody : Option String) (userEmail userName : String)
    (db : Db) (hno : ∀ b ∈ db.attendees, b.id ≠ "test") :
    (testEmailRoute env slotNum testEmailBody testNameBody userEmail userName db).1.attendees
      = db.attendees ∧
    (testEmailRoute env slotNum testEmailBody testNameBody userEmail userName db).1.schedules
      = db.schedules ∧
    (ValidSlot slotNum →
      ∃ msg : EmailMsg,
        (testEmailRoute env slotNum testEmailBody testNameBody userEmail userName db).1.sent
          = db.sent ++ [msg] ∧
        msg.toAddr = (match testEmailBody with
          | some s => if s != "" && s.trim != "" then s.trim else userEmail
          | none => userEmail)) ∧
    (¬ValidSlot slotNum →
      (testEmailRoute env slotNum testEmailBody testNameBody userEmail userName db).1 = db) := by
  by_cases hv : ValidSlot slotNum
  · have hcond : (slotNum == 1 || slotNum == 2 || slotNum == 3 || slotNum == 4) = true :=
      (validSlot_beq slotNum).mpr hv
    refine ⟨?_, ?_, fun _ => ?_, fun h => absurd hv h⟩
    · simp only [testEmailRoute, hcond, if_true]
      cases h4 : (slotNum == 4) <;> simp only [h4, Bool.false_eq_true, if_false, if_true]
      · rw [sendReminderEmail_def]
        exact sendWebinarEmail_attendees_noop env _ _ _ db fun b hb => hno b hb
      · exact sendPostWebinarEmail_attendees_noop env _ _ db fun b hb => hno b hb
    · simp only [testEmailRoute, hcond, if_true]
      cases h4 : (slotNum == 4) <;> simp only [h4, Bool.false_eq_true, if_false, if_true]
      · rw [sendReminderEmail_def]
        exact sendWebinarEmail_schedules env _ _ _ db
      · exact sendPostWebinarEmail_schedules env _ _ db
    · simp only [testEmailRoute, hcond, if_true]
      cases h4 : (slotNum == 4) <;> simp only [h4, Bool.false_eq_true, if_false, if_true]
      · rw [sendReminderEmail_def]
        obtain ⟨msg, h1, h2, -, -, -, -⟩ := sendWebinarEmail_sent env _ _ _ db
        exact ⟨msg, h1, h2⟩
      · obtain ⟨msg, h1, h2, -, -, -, -⟩ := sendPostWebinarEmail_sent env _ _ db
        exact ⟨msg, h1, h2⟩
  · have hcond : (slotNum == 1 || slotNum == 2 || slotNum == 3 || slotNum == 4) = false := by
      cases hc : (slotNum == 1 || slotNum == 2 || slotNum == 3 || slotNum == 4)
      · rfl
      · exact absurd ((validSlot_beq slotNum).mp hc) hv
    refine ⟨?_, ?_, fun h => absurd h hv, fun _ => ?_⟩ <;>
      simp [testEmailRoute, hcond]

/-- C7 witness: a store with no `test` id. -/
theorem C7_test_send_isolated_witness :
    (∀ b ∈ dbFix.attendees, b.id ≠ "test") ∧
    (testEmailRoute envAllOk 1 (some ("ops@example.com")) none ("admin@example.com")
      ("Admin") dbFix).1.attendees = dbFix.attendees :=
  ⟨by decide,
    (C7_test_send_isolated envAllOk 1 (some ("ops@example.com")) none
      ("admin@example.com") ("Admin") dbFix (by decide)).1⟩

/-- A real attendee row that happens to carry the synthetic id `test`. -/
def attTest : Attendee :=
  { id := "test", name := "Victim", email := "victim@example.com",
    surveyToken := some ("tok-v"), emailSent := false, reminder1Sent := false,
    reminder2Sent := false, reminder3Sent := false, postWebinarSent := false }

def dbTest : Db :=
  { attendees := [attTest], schedules := [schFix1], sent := [], entropyUsed := 0 }

/-- C7 counterexample: the claim as stated quantifies over any attendee
data; with a stored attendee whose id is `test` and a succeeding transport,
the test-send route DOES flip that row's `reminder1Sent` (and `emailSent`)
— the shared send routine writes flags for the synthetic id. -/
theorem C7_counterexample :
    dbTest.attendees.map (fun b => b.reminder1Sent) = [false] ∧
    (testEmailRoute envAllOk 1 (some ("ops@example.com")) none ("admin@example.com")
        ("Admin") dbTest).1.attendees.map (fun b => b.reminder1Sent) = [true] := by
  decide

/-- Stand-in for the external date parser `new Date(s).getTime()`. -/
def parseDateFix : String → Int := fun _ => 1735725600000

/-- A completed, disabled slot-3 row, the state an operator would re-arm. -/
def schC8 : ScheduledEmail :=
  { id := 3, slot := 3, scheduledTime := some 1700000000000, subject := none,
    enabled := false, status := Status.completed, lastRun := some 1690000000000 }

def dbC8 : Db := { attendees := [], schedules := [schC8], sent := [], entropyUsed := 0 }

/-- C8 (code bug): `updateSchedule` re-arms (`status := pending`) only when
`data.enabled && data.scheduledTime` holds on the ORIGINAL argument, but the
operator-local (NPT) path stores the converted time into
`updateData.scheduledTime`, leaving `data.scheduledTime` absent — so
enabling a slot with a new NPT due time does NOT reset its status, although
the converted time IS stored; the admin route only ever supplies the NPT
form, so re-arming never happens through it; the direct `scheduledTime`
path does reset, which is the behaviour the code's own comment ("If
enabling and setting time, reset status to pending") promises for both. -/
theorem C8_npt_rearm_bug :
    (∀ (subject : String) (enabled : Bool) (npt : Option String),
      (adminUpdateData subject enabled npt).scheduledTime = none) ∧
    ((updateSchedule parseDateFix 3
        (adminUpdateData ("") true (some ("2025-01-01T15:45"))) dbC8).schedules.map
        (fun r => r.status) = [Status.completed]) ∧
    ((updateSchedule parseDateFix 3
        (adminUpdateData ("") true (some ("2025-01-01T15:45"))) dbC8).schedules.map
        (fun r => r.scheduledTime) = [some (1735725600000 - NPT_OFFSET_MS)]) ∧
    ((updateSchedule parseDateFix 3
        { scheduledTime := some 1735704900000, enabled := some true } dbC8).schedules.map
        (fun r => r.status) = [Status.pending]) := by
  refine ⟨fun _ _ _ => rfl, by decide, by decide, by decide⟩

end Webinar
